import Mathlib

/-!
Shallow embedding of the image compositing and color-contrast pipeline of
the SpotifySyncWall repository (file `src/utils/images.py`), together with
theorems settling the specified properties of that pipeline.

Modelling conventions:
* Python integers are `ℤ` (or `ℕ` for image dimensions, which PIL keeps
  nonnegative); Python float arithmetic is modelled by exact rational
  arithmetic over `ℚ` where no stated property can observe the rounding
  (the contrast-ratio computations), and by an exact integer simulation of
  binary64 round-to-nearest-even where rounding is observable (the
  brightness threshold test of `generate_text_image`, whose float value
  crosses the 186 threshold differently from the exact value on boundary
  inputs).
* PIL images are modelled as a width, a height, a mode and a total pixel
  function; pixel content produced by the external LANCZOS resampler and by
  the external font rasteriser is not observable by any stated property and
  is modelled by simple total functions, while all geometry (sizes, modes,
  offsets, cropping, paste clipping) follows the PIL documentation.
* Fallible PIL calls (negative sizes, division by zero, list indexing)
  return `Except String`.
-/

namespace SpotifyWall

/-- An RGB colour; the palette objects of the source expose an `.rgb`
triple of channel integers. -/
structure Color where
  r : ℕ
  g : ℕ
  b : ℕ
deriving Repr, DecidableEq

/-- One pixel: a colour together with an alpha value (255 = opaque). -/
structure Pixel where
  color : Color
  alpha : ℕ
deriving Repr, DecidableEq

/-- The two PIL modes used by the source: opaque RGB and RGBA. -/
inductive Mode where
  | RGB
  | RGBA
deriving Repr, DecidableEq

/-- A raster image: dimensions, mode, and a pixel function (queried at
coordinates `x < width`, `y < height`). -/
structure Img where
  width : ℕ
  height : ℕ
  mode : Mode
  pix : ℕ → ℕ → Pixel

deriving instance DecidableEq for Except

def transparentBlack : Pixel := ⟨⟨0, 0, 0⟩, 0⟩

def opaqueBlack : Pixel := ⟨⟨0, 0, 0⟩, 255⟩

/-- Model of `PIL.Image.new(mode, (w, h), fill)`: raises `ValueError` on a
negative dimension; a zero dimension is accepted and yields an empty
image. -/
def Image.new (mode : Mode) (w h : ℤ) (fill : Pixel) : Except String Img :=
  if w < 0 ∨ h < 0 then .error "ValueError: negative size"
  else .ok { width := w.toNat, height := h.toNat, mode := mode, pix := fun _ _ => fill }

/-- Model of `PIL.Image.resize((w, h), LANCZOS)`: raises
`ValueError: height and width must be > 0` unless both target sizes are at
least 1 (the `xsize < 1 || ysize < 1` check of the Pillow raster core),
otherwise produces an image of exactly the requested size and the same
mode.  The resampled pixel content is produced by the external LANCZOS
filter; no stated property observes it, and it is modelled here by
coordinate scaling. -/
def Img.resize (img : Img) (w h : ℤ) : Except String Img :=
  if w < 1 ∨ h < 1 then .error "ValueError: height and width must be > 0"
  else .ok { width := w.toNat, height := h.toNat, mode := img.mode,
             pix := fun x y => img.pix (x * img.width / w.toNat) (y * img.height / h.toNat) }

/-- Model of `PIL.Image.crop((left, upper, right, lower))`: the result has
size `(right - left, lower - upper)`; regions of the box outside the source
are filled with zero pixels. -/
def Img.crop (img : Img) (left upper right lower : ℤ) : Img :=
  { width := (right - left).toNat, height := (lower - upper).toNat, mode := img.mode,
    pix := fun x y =>
      let sx : ℤ := left + x
      let sy : ℤ := upper + y
      if 0 ≤ sx ∧ sx < (img.width : ℤ) ∧ 0 ≤ sy ∧ sy < (img.height : ℤ) then
        img.pix sx.toNat sy.toNat
      else transparentBlack }

/-- Model of maskless `PIL.Image.paste(src, (px, py))`: source pixels
landing outside the destination bounds are silently dropped (the
destination keeps its size and mode); pasting onto an RGB destination
discards the alpha of the source. -/
def Img.paste (dst src : Img) (px py : ℤ) : Img :=
  { dst with pix := fun x y =>
      let sx : ℤ := (x : ℤ) - px
      let sy : ℤ := (y : ℤ) - py
      if 0 ≤ sx ∧ sx < (src.width : ℤ) ∧ 0 ≤ sy ∧ sy < (src.height : ℤ) then
        let p := src.pix sx.toNat sy.toNat
        { p with alpha := if dst.mode = Mode.RGB then 255 else p.alpha }
      else dst.pix x y }

/-- Fixed-point alpha blend of one channel, as performed by the PIL paste
primitive when given a soft mask. -/
def blendChannel (d s a : ℕ) : ℕ := (d * (255 - a) + s * a) / 255

def blendColor (d s : Color) (a : ℕ) : Color :=
  ⟨blendChannel d.r s.r a, blendChannel d.g s.g a, blendChannel d.b s.b a⟩

/-- Model of `PIL.Image.paste(src, (px, py), mask)` with an RGBA mask: the
alpha band of the mask selects, per pixel, between the destination (alpha
0), the source (alpha 255), or their blend.  As in `Img.paste`, source
pixels outside the destination bounds are dropped. -/
def Img.pasteMasked (dst src mask : Img) (px py : ℤ) : Img :=
  { dst with pix := fun x y =>
      let sx : ℤ := (x : ℤ) - px
      let sy : ℤ := (y : ℤ) - py
      if 0 ≤ sx ∧ sx < (src.width : ℤ) ∧ 0 ≤ sy ∧ sy < (src.height : ℤ) then
        let a := (mask.pix sx.toNat sy.toNat).alpha
        if a = 0 then dst.pix x y
        else if 255 ≤ a then
          { src.pix sx.toNat sy.toNat with alpha := if dst.mode = Mode.RGB then 255 else a }
        else ⟨blendColor (dst.pix x y).color (src.pix sx.toNat sy.toNat).color a,
              (dst.pix x y).alpha⟩
      else dst.pix x y }

/-- Model of `PIL.ImageDraw.Draw(img).text(pos, s, font, fill)`.  Glyph
coverage is produced by the external font engine and is not observable by
any stated property; the layer is returned with its pixel content
unchanged (all pixels outside glyph coverage stay transparent). -/
def drawText (img : Img) (_posX _posY : ℤ) (_s : String) (_fill : Color) : Img :=
  img

/-- `images.py`, lines 22 and 23: `int(width / 2 - cover.width / 2)`.
Both halves are exactly representable floats, so the subtraction computes
the exact value `(d - c) / 2`, and Python `int(...)` truncates it toward
zero: this is `Int.tdiv (d - c) 2`. -/
def center_coord (displayDim coverDim : ℤ) : ℤ :=
  (displayDim - coverDim).tdiv 2

/-- `images.py`, `paste_and_save_album_image` (lines 8 to 33): pastes the
cover at the centre of the background, flattens everything onto a fresh
opaque RGB canvas of the display size, overlays the text layer through its
own alpha mask, and persists the result.  The returned image is the raster
written to `ImageCache/finalImage.png`. -/
def paste_and_save_album_image (bg cover : Img) (display : ℤ × ℤ) (text : Img) :
    Except String Img :=
  let width := display.1
  let height := display.2
  let center_x := center_coord width (cover.width : ℤ)
  let center_y := center_coord height (cover.height : ℤ)
  let bg1 := bg.paste cover center_x center_y
  match Image.new Mode.RGB width height opaqueBlack with
  | .error e => .error e
  | .ok background =>
      let background1 := background.paste bg1 0 0
      let background2 := background1.pasteMasked text text 0 0
      .ok background2

/-- Fuel-bounded base-2 logarithm: `log2Fuel fuel n` is the floor of
log2 of n for `1 ≤ n < 2 ^ fuel` (and 0 at n = 0).  Structural in the
fuel so that it evaluates by kernel reduction. -/
def log2Fuel : ℕ → ℕ → ℕ
  | 0, _ => 0
  | fuel + 1, n => if n < 2 then 0 else log2Fuel fuel (n / 2) + 1

/-- Floor of log2, exact on every value below `2 ^ 128`, which covers all
quantities of the float model. -/
def ilog2 (n : ℕ) : ℕ := log2Fuel 128 n

/-- Round x to a multiple of the unit P, ties to the even multiple. -/
def roundAtUnit (x P : ℕ) : ℕ :=
  let q := x / P
  let r := x % P
  if 2 * r < P then q * P
  else if P < 2 * r then (q + 1) * P
  else if q % 2 = 0 then q * P else (q + 1) * P

/-- Round-to-nearest-even quotient of p / q. -/
def roundNearestEvenDiv (p q : ℕ) : ℕ :=
  let d := p / q
  let r := p % q
  if 2 * r < q then d
  else if q < 2 * r then d + 1
  else if d % 2 = 0 then d else d + 1

/-- IEEE-754 binary64 rounding (round to nearest, ties to even) of a
nonnegative value given as an exact integer multiple of `2 ^ (-60)`: the
result keeps at most 53 significant bits.  Values below `2 ^ 53` already
fit in 53 bits and are exact; no value of the brightness computation
reaches the overflow or subnormal ranges. -/
def roundSig53 (x : ℕ) : ℕ :=
  if x < 2 ^ 53 then x else roundAtUnit x (2 ^ (ilog2 x - 52))

/-- The binary64 double denoted by the decimal fraction num/den (assumed
in `[2 ^ (-8), 1)`), scaled by `2 ^ 60`: the 53-bit mantissa is the
round-to-nearest-even quotient at the exact binade of the value. -/
def dyadic60 (num den : ℕ) : ℕ :=
  let t := ilog2 (num * 2 ^ 60 / den)
  roundNearestEvenDiv (num * 2 ^ (112 - t)) den * 2 ^ (t - 52)

/-- The doubles the Python literals 0.299, 0.587 and 0.114 denote,
scaled by `2 ^ 60`. -/
def f0299 : ℕ := dyadic60 299 1000

def f0587 : ℕ := dyadic60 587 1000

def f0114 : ℕ := dyadic60 114 1000

/-- Exact binary64 evaluation of the Python expression
`r * 0.299 + g * 0.587 + b * 0.114` (left associated, one IEEE rounding
per operation; integer channels up to 255 convert to doubles exactly),
scaled by `2 ^ 60`.  Every intermediate double of this computation is an
integer multiple of `2 ^ (-60)`, so integer arithmetic at scale `2 ^ 60`
simulates the float computation exactly; the simulation was checked
against CPython on all channel triples in 0..255. -/
def pyBrightness60 (c : Color) : ℕ :=
  let t1 := roundSig53 (c.r * f0299)
  let t2 := roundSig53 (c.g * f0587)
  let t3 := roundSig53 (t1 + t2)
  let t4 := roundSig53 (c.b * f0114)
  roundSig53 (t3 + t4)

/-- `images.py`, lines 59 to 62: the perceptual-brightness test choosing
the text colour, under exact binary64 float semantics.  The threshold 186
is an exact double and Python compares exact values, so the comparison is
the integer comparison of the scaled brightness with `186 * 2 ^ 60`. -/
def adjust_text_color (text_color : Color) : Color :=
  if pyBrightness60 text_color > 186 * 2 ^ 60 then ⟨0, 0, 0⟩
  else ⟨255, 255, 255⟩

/-- `images.py`, `generate_text_image` (lines 36 to 74): picks the text
colour from `colors[0]` (raising `IndexError` on an empty palette),
allocates a fully transparent RGBA canvas of the display size, and draws
the two text lines.  The Python function returns only the layer; the fill
colour it selected on lines 56 to 62 is returned alongside so that
colour-selection properties are statable. -/
def generate_text_image (song_title artist_name : String) (colors : List Color)
    (display : ℤ × ℤ) (position_x position_y : ℤ) :
    Except String (Img × Color) :=
  match colors with
  | [] => .error "IndexError: list index out of range"
  | c0 :: _ =>
      let width := display.1
      let height := display.2
      let text_color := adjust_text_color c0
      match Image.new Mode.RGBA width height transparentBlack with
      | .error e => .error e
      | .ok text =>
          .ok (drawText text position_x position_y
                 (song_title ++ "\n" ++ artist_name) text_color,
               text_color)

/-- `images.py`, line 116: relative luminance `0.2126 R + 0.7152 G +
0.0722 B`, as an exact rational. -/
def calculate_relative_luminance (color : Color) : ℚ :=
  0.2126 * color.r + 0.7152 * color.g + 0.0722 * color.b

/-- `images.py`, `calculate_contrast_ratio` (lines 77 to 99): orders the
two luminances so the larger is the numerator and returns
`(L1 + 0.05) / (L2 + 0.05)`. -/
def calculate_contrast_ratio (color1 color2 : Color) : ℚ :=
  let luminance1 := calculate_relative_luminance color1
  let luminance2 := calculate_relative_luminance color2
  if luminance2 > luminance1 then (luminance2 + 0.05) / (luminance1 + 0.05)
  else (luminance1 + 0.05) / (luminance2 + 0.05)

/-- Squared Euclidean distance of a colour from black.  The source (line
130) compares `math.sqrt` of these sums; the square root is strictly
monotone (see `sqrt_distance_lt_iff` below), and for sums up to
3 * 255 ^ 2 the float square root is exact enough that the float
comparison agrees with the exact one, so comparing the squared distances
is the same predicate. -/
def distanceFromBlackSq (c : Color) : ℕ :=
  c.r ^ 2 + c.g ^ 2 + c.b ^ 2

/-- `images.py`, `find_darkest_color` (lines 118 to 136): indexes
`colors[0]` and `colors[1]` (raising `IndexError` if absent), compares
their Euclidean distances from black, and returns the two colours as a
list. -/
def find_darkest_color (colors : List Color) : Except String (List Color) :=
  match colors with
  | c0 :: c1 :: _ =>
      let distance1 := distanceFromBlackSq c0
      let distance2 := distanceFromBlackSq c1
      if distance1 > distance2 then .ok [c0, c1] else .ok [c1, c0]
  | _ => .error "IndexError: list index out of range"

/-- `images.py`, `resize_and_center_image` (lines 139 to 166): truncates
the aspect ratio to an integer, scales the height to `target_height`,
resizes, and centre-crops horizontally when the resized width exceeds
`target_width`.  A zero source height raises `ZeroDivisionError` at the
aspect-ratio division; `int(image.width / image.height)` on nonnegative
integers is exact floor division for every realistic size. -/
def resize_and_center_image (image : Img) (target_width target_height : ℤ) :
    Except String Img :=
  if image.height = 0 then .error "ZeroDivisionError: division by zero"
  else
    let aspect_ratio : ℕ := image.width / image.height
    let new_height : ℤ := target_height
    let new_width : ℤ := (aspect_ratio : ℤ) * new_height
    match image.resize new_width new_height with
    | .error e => .error e
    | .ok resized_image =>
        if new_width > target_width then
          let x_offset : ℤ := (new_width - target_width).fdiv 2
          .ok (resized_image.crop x_offset 0 (x_offset + target_width) new_height)
        else .ok resized_image

/-! Concrete images used as inputs of concrete scenarios. -/

def img300 : Img := ⟨300, 300, Mode.RGB, fun _ _ => opaqueBlack⟩

def img400x300 : Img := ⟨400, 300, Mode.RGB, fun _ _ => opaqueBlack⟩

def img100x200 : Img := ⟨100, 200, Mode.RGB, fun _ _ => opaqueBlack⟩

def img5x0 : Img := ⟨5, 0, Mode.RGB, fun _ _ => opaqueBlack⟩

def textLayer500 : Img := ⟨500, 500, Mode.RGBA, fun _ _ => transparentBlack⟩

/-- The square root is strictly monotone on the natural numbers, so the
comparison of Euclidean distances from black performed on line 133 of the
source coincides with the comparison of the squared distances used in
`find_darkest_color`. -/
theorem sqrt_distance_lt_iff (m n : ℕ) :
    Real.sqrt m < Real.sqrt n ↔ m < n := by
  rw [Real.sqrt_lt_sqrt_iff (by positivity)]
  exact_mod_cast Iff.rfl

/-- C2: on a 400 by 300 source with target 200 by 300, the truncated
aspect ratio is 1, the intermediate width is 300, it exceeds the target
width 200, and the centre-crop produces exactly a 200 by 300 image. -/
theorem c2_concrete_resize_crop :
    (img400x300.width / img400x300.height : ℕ) * 300 = 300 ∧ 300 > 200 ∧
      (resize_and_center_image img400x300 200 300).map
        (fun out => (out.width, out.height)) = .ok (200, 300) := by
  decide

/-- C3 counterexample: on the pair (white, black) the function returns
white first, although white is strictly farther from black than black is;
the first element is not the colour closer to black. -/
theorem c3_counterexample_lighter_first :
    find_darkest_color [⟨255, 255, 255⟩, ⟨0, 0, 0⟩] =
        .ok [⟨255, 255, 255⟩, ⟨0, 0, 0⟩] ∧
      distanceFromBlackSq ⟨0, 0, 0⟩ < distanceFromBlackSq ⟨255, 255, 255⟩ := by
  decide

/-- C3 amended: `find_darkest_color` returns the two input colours with
the colour farther from black (in Euclidean distance) first and the closer
one second; on ties the second argument comes first. -/
theorem c3_amended_farther_first (a b : Color) :
    ∃ first second, find_darkest_color [a, b] = .ok [first, second] ∧
      Real.sqrt (distanceFromBlackSq second) ≤ Real.sqrt (distanceFromBlackSq first) ∧
      ((first = a ∧ second = b) ∨ (first = b ∧ second = a)) := by
  unfold find_darkest_color
  by_cases h : distanceFromBlackSq b < distanceFromBlackSq a
  · exact ⟨a, b, by simp [h], Real.sqrt_le_sqrt (by exact_mod_cast h.le), Or.inl ⟨rfl, rfl⟩⟩
  · refine ⟨b, a, by simp [h], Real.sqrt_le_sqrt ?_, Or.inr ⟨rfl, rfl⟩⟩
    exact_mod_cast le_of_not_lt h

/-- C4 counterexample: the colours (1,0,0) and (0,1,0) are at equal
Euclidean distance from black, yet the first element of the result of
`find_darkest_color` differs between the two argument orders. -/
theorem c4_counterexample_tie_swap :
    (find_darkest_color [⟨1, 0, 0⟩, ⟨0, 1, 0⟩]).map (fun l => l.getD 0 ⟨0, 0, 0⟩) ≠
        (find_darkest_color [⟨0, 1, 0⟩, ⟨1, 0, 0⟩]).map (fun l => l.getD 0 ⟨0, 0, 0⟩) ∧
      distanceFromBlackSq ⟨1, 0, 0⟩ = distanceFromBlackSq ⟨0, 1, 0⟩ := by
  decide

/-- C4 amended: the first element returned by `find_darkest_color` is
independent of the argument order whenever the two Euclidean distances
from black differ (for equal distances and distinct colours it is the
second argument, so it depends on the order). -/
theorem c4_amended_swap_stable_of_ne (a b : Color)
    (h : distanceFromBlackSq a ≠ distanceFromBlackSq b) :
    (find_darkest_color [a, b]).map (fun l => l.getD 0 ⟨0, 0, 0⟩) =
      (find_darkest_color [b, a]).map (fun l => l.getD 0 ⟨0, 0, 0⟩) := by
  simp only [find_darkest_color]
  rcases Nat.lt_or_ge (distanceFromBlackSq a) (distanceFromBlackSq b) with h1 | h1
  · rw [if_neg (by omega : ¬ distanceFromBlackSq a > distanceFromBlackSq b),
        if_pos (h1 : distanceFromBlackSq b > distanceFromBlackSq a)]
  · rw [if_pos (by omega : distanceFromBlackSq a > distanceFromBlackSq b),
        if_neg (by omega : ¬ distanceFromBlackSq b > distanceFromBlackSq a)]

theorem c4_amended_swap_stable_witness :
    distanceFromBlackSq ⟨255, 255, 255⟩ ≠ distanceFromBlackSq ⟨0, 0, 0⟩ ∧
      (find_darkest_color [⟨255, 255, 255⟩, ⟨0, 0, 0⟩]).map (fun l => l.getD 0 ⟨0, 0, 0⟩) =
        (find_darkest_color [⟨0, 0, 0⟩, ⟨255, 255, 255⟩]).map (fun l => l.getD 0 ⟨0, 0, 0⟩) :=
  ⟨by decide, c4_amended_swap_stable_of_ne ⟨255, 255, 255⟩ ⟨0, 0, 0⟩ (by decide)⟩

/-- C9: the code performs no geometry validation.  A display width of 0
(non-positive) flows through `generate_text_image`, which allocates a
0 by 300 RGBA canvas and returns normally instead of raising a validation
error; a 5 by 0 source image makes `resize_and_center_image` raise
`ZeroDivisionError` only incidentally at the aspect-ratio division; only a
negative canvas dimension raises, and that inside `PIL.Image.new` after
raster work has begun. -/
theorem c9_no_geometry_validation :
    (generate_text_image "title" "artist" [⟨10, 10, 10⟩] (0, 300) 50 50).map
        (fun p => (p.1.width, p.1.height, p.1.mode)) = .ok (0, 300, Mode.RGBA) ∧
      (resize_and_center_image img5x0 100 100).map Img.width =
        .error "ZeroDivisionError: division by zero" ∧
      (Image.new Mode.RGB (-5) 300 opaqueBlack).map Img.width =
        .error "ValueError: negative size" ∧
      (paste_and_save_album_image img300 img100x200 (0, 300) textLayer500).map
        (fun i => (i.width, i.height)) = .ok (0, 300) := by
  refine ⟨by decide, by decide, by decide, by decide⟩

/-- Upper bound for the fuel-bounded logarithm: it never exceeds the
bit position bounding its argument. -/
theorem log2Fuel_le (fuel n k : ℕ) (h : n < 2 ^ (k + 1)) : log2Fuel fuel n ≤ k := by
  induction fuel generalizing n k with
  | zero => exact Nat.zero_le _
  | succ fuel ih =>
      simp only [log2Fuel]
      split_ifs with h2
      · exact Nat.zero_le _
      · have hk1 : 1 ≤ k := by
          by_contra hk0
          push_neg at hk0
          have hk : k = 0 := by omega
          subst hk
          norm_num at h
          omega
        have hdiv : n / 2 < 2 ^ k := by
          rw [Nat.div_lt_iff_lt_mul (by norm_num)]
          calc n < 2 ^ (k + 1) := h
          _ = 2 ^ k * 2 := by rw [pow_succ]
        have hrec := ih (n / 2) (k - 1) (by rw [Nat.sub_add_cancel hk1]; exact hdiv)
        omega

/-- Rounding to a multiple of the unit P moves a value by less than one
unit in either direction. -/
theorem roundAtUnit_close (x P : ℕ) (hP : 0 < P) :
    roundAtUnit x P ≤ x + P ∧ x ≤ roundAtUnit x P + P := by
  have hdm : x / P * P + x % P = x := by
    rw [mul_comm]
    exact Nat.div_add_mod x P
  have hm : x % P < P := Nat.mod_lt x hP
  have hexp : (x / P + 1) * P = x / P * P + P := by ring
  simp only [roundAtUnit]
  rw [hexp]
  generalize hA : x / P * P = A at hdm ⊢
  generalize hr : x % P = r at hdm hm ⊢
  split_ifs <;> constructor <;> omega

/-- Binary64 rounding moves any value not exceeding `2 ^ 68` (that is,
any value of the brightness computation, whose doubles stay below 256) by
at most `2 ^ 16` units of the `2 ^ 60` scale, an absolute error below
`2 ^ (-44)`. -/
theorem roundSig53_close (x : ℕ) (hx : x ≤ 2 ^ 68) :
    roundSig53 x ≤ x + 2 ^ 16 ∧ x ≤ roundSig53 x + 2 ^ 16 := by
  unfold roundSig53
  split_ifs with h0
  · omega
  · have hb : ilog2 x ≤ 68 := log2Fuel_le 128 x 68 (by omega)
    have hPle : 2 ^ (ilog2 x - 52) ≤ 2 ^ 16 := Nat.pow_le_pow_right (by norm_num) (by omega)
    have hP : 0 < 2 ^ (ilog2 x - 52) := pow_pos (by norm_num) _
    have hclose := roundAtUnit_close x (2 ^ (ilog2 x - 52)) hP
    constructor <;> omega

/-- The float brightness, scaled by `1000 * 2 ^ 60`, stays within `2 ^ 30`
of the exact integer value `(299 R + 587 G + 114 B) * 2 ^ 60` for channels
in 0..255: three constant-representation errors of at most `255 * 2 ^ 16`
and five rounding errors of at most `1000 * 2 ^ 16` each. -/
theorem pyBrightness60_close (c : Color) (hr : c.r ≤ 255) (hg : c.g ≤ 255) (hb : c.b ≤ 255) :
    1000 * pyBrightness60 c ≤ (299 * c.r + 587 * c.g + 114 * c.b) * 2 ^ 60 + 2 ^ 30 ∧
      (299 * c.r + 587 * c.g + 114 * c.b) * 2 ^ 60 ≤ 1000 * pyBrightness60 c + 2 ^ 30 := by
  have hf1 : f0299 = 344723529877447232 := by decide
  have hf2 : f0587 = 676764923204219136 := by decide
  have hf3 : f0114 = 131433051525180560 := by decide
  simp only [pyBrightness60, hf1, hf2, hf3]
  have h1 := roundSig53_close (c.r * 344723529877447232) (by omega)
  have h2 := roundSig53_close (c.g * 676764923204219136) (by omega)
  have h4 := roundSig53_close (c.b * 131433051525180560) (by omega)
  have h3 := roundSig53_close
    (roundSig53 (c.r * 344723529877447232) + roundSig53 (c.g * 676764923204219136)) (by omega)
  have h5 := roundSig53_close
    (roundSig53 (roundSig53 (c.r * 344723529877447232) +
        roundSig53 (c.g * 676764923204219136)) +
      roundSig53 (c.b * 131433051525180560)) (by omega)
  constructor <;> omega

/-- Away from the exact threshold (sums with `299 R + 587 G + 114 B`
different from 186000) the float error of below `2 ^ (-40)` cannot cross
the margin of 0.001, so the float test agrees with the exact integer
threshold. -/
theorem adjust_text_color_off_boundary (c : Color) (hr : c.r ≤ 255) (hg : c.g ≤ 255)
    (hb : c.b ≤ 255) (hS : 299 * c.r + 587 * c.g + 114 * c.b ≠ 186000) :
    adjust_text_color c =
      if 299 * c.r + 587 * c.g + 114 * c.b > 186000 then ⟨0, 0, 0⟩ else ⟨255, 255, 255⟩ := by
  have hclose := pyBrightness60_close c hr hg hb
  unfold adjust_text_color
  exact if_congr (by omega) rfl rfl

/-- C5 counterexample: at palette first entry (170, 226, 22) the exact
weighted brightness equals 186 exactly (299 R + 587 G + 114 B = 186000),
so the claim requires the white fill, but the float evaluation of
`170*0.299 + 226*0.587 + 22*0.114` rounds up to a value above 186 and the
program selects black. -/
theorem c5_counterexample_boundary_rounds_up :
    (generate_text_image "t" "a" [⟨170, 226, 22⟩] (100, 100) 50 50).map Prod.snd =
        .ok ⟨0, 0, 0⟩ ∧
      299 * 170 + 587 * 226 + 114 * 22 = 186000 ∧
      ¬ ((170 : ℚ) * 0.299 + (226 : ℚ) * 0.587 + (22 : ℚ) * 0.114 > 186) := by
  refine ⟨by decide, by decide, by norm_num⟩

/-- C5 amended: for a palette with at least one entry whose first colour
has channels in 0..255 and exact weighted sum 299 R + 587 G + 114 B
different from 186000, `generate_text_image` selects the fill from the
first entry alone: opaque black exactly when the sum exceeds 186000
(equivalently, when `0.299 R + 0.587 G + 0.114 B` exceeds 186) and opaque
white otherwise; exactly on the boundary the binary64 rounding of the
float evaluation decides, and it can select black, as at (170, 226, 22).
In particular a white first entry yields black and a black one yields
white. -/
theorem c5_amended_text_fill_off_boundary (song_title artist_name : String)
    (c0 : Color) (rest : List Color) (w h : ℤ) (hw : 0 ≤ w) (hh : 0 ≤ h)
    (hr : c0.r ≤ 255) (hg : c0.g ≤ 255) (hb : c0.b ≤ 255)
    (hS : 299 * c0.r + 587 * c0.g + 114 * c0.b ≠ 186000) :
    (generate_text_image song_title artist_name (c0 :: rest) (w, h) 50 50).map Prod.snd =
        .ok (if 299 * c0.r + 587 * c0.g + 114 * c0.b > 186000 then ⟨0, 0, 0⟩
             else ⟨255, 255, 255⟩) ∧
      adjust_text_color ⟨255, 255, 255⟩ = ⟨0, 0, 0⟩ ∧
      adjust_text_color ⟨0, 0, 0⟩ = ⟨255, 255, 255⟩ := by
  refine ⟨?_, by decide, by decide⟩
  · have hnew : ¬((w, h).1 < 0 ∨ (w, h).2 < 0) := by
      simp only []
      omega
    simp only [generate_text_image, Image.new, if_neg hnew, Except.map]
    rw [adjust_text_color_off_boundary c0 hr hg hb hS]

theorem c5_amended_witness :
    (0 : ℤ) ≤ 100 ∧ (0 : ℤ) ≤ 50 ∧
      (255 : ℕ) ≤ 255 ∧ (0 : ℕ) ≤ 255 ∧ (0 : ℕ) ≤ 255 ∧
      299 * 255 + 587 * 0 + 114 * 0 ≠ 186000 ∧
      ((generate_text_image "t" "a" [⟨255, 0, 0⟩] (100, 50) 50 50).map Prod.snd =
          .ok (if 299 * (255 : ℕ) + 587 * 0 + 114 * 0 > 186000 then ⟨0, 0, 0⟩
               else ⟨255, 255, 255⟩) ∧
        adjust_text_color ⟨255, 255, 255⟩ = ⟨0, 0, 0⟩ ∧
        adjust_text_color ⟨0, 0, 0⟩ = ⟨255, 255, 255⟩) :=
  ⟨by decide, by decide, by decide, by decide, by decide, by decide,
    c5_amended_text_fill_off_boundary "t" "a" ⟨255, 0, 0⟩ [] 100 50
      (by decide) (by decide) (by decide) (by decide) (by decide) (by decide)⟩

/-- C6: the contrast ratio is symmetric in its two arguments, always at
least 1, and equal to 1 on equal arguments. -/
theorem c6_contrast_symmetric_ge_one (a b c : Color) :
    calculate_contrast_ratio a b = calculate_contrast_ratio b a ∧
      1 ≤ calculate_contrast_ratio a b ∧
      calculate_contrast_ratio c c = 1 := by
  have hlum : ∀ d : Color, 0 ≤ calculate_relative_luminance d := by
    intro d
    unfold calculate_relative_luminance
    positivity
  have h5 : (0 : ℚ) < 0.05 := by norm_num
  refine ⟨?_, ?_, ?_⟩
  · unfold calculate_contrast_ratio
    rcases lt_trichotomy (calculate_relative_luminance a) (calculate_relative_luminance b)
      with h | h | h
    · rw [if_pos h, if_neg (not_lt.mpr h.le)]
    · rw [if_neg (not_lt.mpr h.le), if_neg (not_lt.mpr h.ge), h]
    · rw [if_neg (not_lt.mpr h.le), if_pos h]
  · unfold calculate_contrast_ratio
    simp only [gt_iff_lt]
    split_ifs with h
    · rw [one_le_div (by linarith [hlum a])]
      linarith
    · rw [one_le_div (by linarith [hlum b])]
      linarith [not_lt.mp h]
  · unfold calculate_contrast_ratio
    rw [if_neg (lt_irrefl _)]
    exact div_self (by linarith [hlum c])

/-- C7 counterexample: for a display width of 4 and a cover width of 7
the code computes offset -1, while the mathematical floor of
`4 / 2 - 7 / 2` is -2. -/
theorem c7_counterexample_offset_not_floor :
    center_coord 4 7 = -1 ∧ ⌊(4 / 2 - 7 / 2 : ℚ)⌋ = -2 ∧
      center_coord 4 7 ≠ ⌊(4 / 2 - 7 / 2 : ℚ)⌋ := by
  have hfl : ⌊(4 / 2 - 7 / 2 : ℚ)⌋ = -2 := by
    rw [show (4 / 2 - 7 / 2 : ℚ) = ((-3 : ℤ) : ℚ) / ((2 : ℕ) : ℚ) by norm_num,
        Rat.floor_intCast_div_natCast]
    decide
  exact ⟨by decide, hfl, by rw [hfl]; decide⟩

/-- C7 amended: the paste offset is the truncation toward zero of
`display/2 - cover/2`: it equals the mathematical floor when the
difference `display - cover` is nonnegative or even, and the floor plus
one when the difference is negative and odd. -/
theorem c7_amended_offset_truncation (displayDim coverDim : ℤ) :
    center_coord displayDim coverDim =
      if 0 ≤ displayDim - coverDim ∨ 2 ∣ (displayDim - coverDim) then
        ⌊((displayDim : ℚ) / 2 - (coverDim : ℚ) / 2)⌋
      else ⌊((displayDim : ℚ) / 2 - (coverDim : ℚ) / 2)⌋ + 1 := by
  have hfl : ⌊((displayDim : ℚ) / 2 - (coverDim : ℚ) / 2)⌋ = (displayDim - coverDim) / 2 := by
    rw [show ((displayDim : ℚ) / 2 - (coverDim : ℚ) / 2) =
          ((displayDim - coverDim : ℤ) : ℚ) / ((2 : ℕ) : ℚ) by push_cast; ring,
        Rat.floor_intCast_div_natCast]
    norm_num
  rw [hfl]
  unfold center_coord
  rcases Int.even_or_odd (displayDim - coverDim) with ⟨k, hk⟩ | ⟨k, hk⟩
  · have ht : (displayDim - coverDim).tdiv 2 = k := by
      rw [show displayDim - coverDim = 2 * k by omega]
      exact Int.mul_tdiv_cancel_left _ (by norm_num)
    rw [if_pos (Or.inr ⟨k, by omega⟩)]
    omega
  · rcases le_or_lt 0 (displayDim - coverDim) with h0 | h0
    · rw [if_pos (Or.inl h0), Int.tdiv_eq_ediv h0 (by norm_num)]
    · have h1 : (-(displayDim - coverDim)).tdiv 2 = -(displayDim - coverDim) / 2 :=
        Int.tdiv_eq_ediv (by omega) (by norm_num)
      have h2 : (-(displayDim - coverDim)).tdiv 2 = -((displayDim - coverDim).tdiv 2) :=
        Int.neg_tdiv _ _
      have hcond : ¬ (0 ≤ displayDim - coverDim ∨ 2 ∣ (displayDim - coverDim)) := by
        rintro (h' | ⟨m, hm⟩) <;> omega
      rw [if_neg hcond]
      omega

/-- C8: for every combination of background, cover and text-layer sizes
and nonnegative display dimensions, the persisted canvas has exactly the
display dimensions and opaque RGB mode. -/
theorem c8_final_canvas_dims (bg cover text : Img) (w h : ℤ) (hw : 0 ≤ w) (hh : 0 ≤ h) :
    ∃ final, paste_and_save_album_image bg cover (w, h) text = .ok final ∧
      (final.width : ℤ) = w ∧ (final.height : ℤ) = h ∧ final.mode = Mode.RGB := by
  simp only [paste_and_save_album_image, Image.new]
  rw [if_neg (show ¬(w < 0 ∨ h < 0) by omega)]
  dsimp only
  refine ⟨_, rfl, ?_, ?_, rfl⟩
  · simp only [Img.pasteMasked, Img.paste]
    exact Int.toNat_of_nonneg hw
  · simp only [Img.pasteMasked, Img.paste]
    exact Int.toNat_of_nonneg hh

theorem c8_final_canvas_dims_witness :
    (0 : ℤ) ≤ 500 ∧ (0 : ℤ) ≤ 700 ∧
      ∃ final, paste_and_save_album_image img300 img100x200 (500, 700) textLayer500 =
          .ok final ∧
        (final.width : ℤ) = 500 ∧ (final.height : ℤ) = 700 ∧ final.mode = Mode.RGB :=
  ⟨by decide, by decide,
    c8_final_canvas_dims img300 img100x200 textLayer500 500 700 (by decide) (by decide)⟩

end SpotifyWall
